import Mathlib

/-!
Verification development for the track-swift-rides driver-tracking dashboard.

The embedding models the JavaScript runtime behaviour of the reconciliation
pipeline (`src/pages/DriverTracking.tsx`, in its variant that stamps
`lastUpdate`), the marker animation and staleness check
(`src/components/tracking/MapView.tsx`, `DriversList.tsx`) and the WebSocket
reconnect policy (`src/hooks/useWebSocket.ts`).

Conventions of the embedding:
* optional JSON fields (a key that may be absent, or `undefined` at runtime)
  are `Option`; numbers are exact rationals `ℚ`, timestamps are `ℤ`
  (milliseconds);
* JavaScript string truthiness (`id && …`, `name || …`) is modelled
  explicitly: `none` and `some ""` are falsy;
* the object spread `\x7b...old, ...patch\x7d` applied to a JSON-decoded patch is a
  per-field right-biased merge, since JSON decoding never produces a key
  holding `undefined`.
-/

/-- A (lat, lng) pair as it exists at runtime: either coordinate may be
`undefined` when an update arrives without it. -/
structure Location where
  lat : Option ℚ
  lng : Option ℚ
deriving DecidableEq, Repr

/-- A delivery owned by a driver. -/
structure Delivery where
  id : String
  address : String
  estimatedArrival : String
deriving DecidableEq, Repr

/-- A driver record as stored by the dashboard.  All fields other than the
identity are `Option`, reflecting the runtime objects (a patch decoded from
JSON may omit any of them).  `currentDelivery`: the outer `Option` is key
presence, the inner one distinguishes `null` from a delivery. -/
structure Driver where
  id : String
  name : Option String
  vehicle : Option String
  status : Option String
  location : Location
  prevLocation : Option Location
  phone : Option String
  currentDelivery : Option (Option Delivery)
  lastUpdate : Option ℤ
deriving DecidableEq, Repr

/-- A parsed wire message (`JSON.parse` result): `type` plus whichever of the
optional payload fields the sender supplied. -/
structure WireMsg where
  type : String
  driver : Option Driver
  drivers : Option (List Driver)
  lat : Option ℚ
  lng : Option ℚ
  name : Option String
  phone : Option String
  id : Option String
deriving DecidableEq, Repr

/-- JavaScript truthiness of an optional string (`if (id …)`): `undefined`
and the empty string are falsy. -/
def strTruthy : Option String → Bool
  | none => false
  | some s => s ≠ ""

/-- JavaScript `x || y` on optional strings (`name || existing.name`). -/
def jsOrStr (x y : Option String) : Option String :=
  match x with
  | none => y
  | some s => if s = "" then y else some s

/-- JavaScript `x || d` where the fallback is a definite string
(`id || `flutter-...``, `name || 'Unknown Driver'`). -/
def jsOrStrD (x : Option String) (d : String) : String :=
  match x with
  | none => d
  | some s => if s = "" then d else s

/-- The object spread `\x7b...old, ...upd\x7d` for two driver records whose optional
fields mark key presence: a field of `upd` wins when present, otherwise the
field of `old` survives. -/
def spreadMerge (old upd : Driver) : Driver :=
  { id := upd.id
    name := upd.name <|> old.name
    vehicle := upd.vehicle <|> old.vehicle
    status := upd.status <|> old.status
    location := upd.location
    prevLocation := upd.prevLocation <|> old.prevLocation
    phone := upd.phone <|> old.phone
    currentDelivery := upd.currentDelivery <|> old.currentDelivery
    lastUpdate := upd.lastUpdate <|> old.lastUpdate }

/-- `updateDriverLocation` (DriverTracking.tsx): find the first stored record
with the incoming id; if found, replace it in place with
`\x7b...existing, ...updatedDriver, prevLocation: existing.location,
lastUpdate: Date.now()\x7d`; otherwise append `\x7b...updatedDriver,
lastUpdate: Date.now()\x7d` and raise one "new driver connected" toast.
Returns the new store and the number of toasts raised. -/
def updateDriverLocation : List Driver → Driver → ℤ → List Driver × Nat
  | [], upd, now => ([{ upd with lastUpdate := some now }], 1)
  | d :: ds, upd, now =>
    if d.id = upd.id then
      ({ spreadMerge d upd with
          prevLocation := some d.location
          lastUpdate := some now } :: ds, 0)
    else
      let r := updateDriverLocation ds upd now
      (d :: r.1, r.2)

/-- The `newDriver` object literal of `processFlutterUpdate`: a fresh record
for an update whose id is unknown (or missing, in which case the id is the
synthesized `flutter-` timestamp token). -/
def flutterNewDriver (data : WireMsg) (now : ℤ) : Driver :=
  { id := jsOrStrD data.id ("flutter-" ++ toString now)
    name := some (jsOrStrD data.name "Unknown Driver")
    phone := some (jsOrStrD data.phone "Unknown")
    vehicle := some "Unknown Vehicle"
    status := some "active"
    location := { lat := data.lat, lng := data.lng }
    prevLocation := none
    currentDelivery := some none
    lastUpdate := some now }

/-- `processFlutterUpdate` (DriverTracking.tsx): if the message carries a
truthy id matching a stored driver, build the `updatedDriver` literal over the
first such record and route it through `updateDriverLocation`; otherwise
append a fresh driver and raise one toast. -/
def processFlutterUpdate (data : WireMsg) (store : List Driver) (now : ℤ) :
    List Driver × Nat :=
  if strTruthy data.id then
    match store.find? (fun d => some d.id = data.id) with
    | some ex =>
        updateDriverLocation store
          { ex with
              location := { lat := data.lat, lng := data.lng }
              name := jsOrStr data.name ex.name
              phone := jsOrStr data.phone ex.phone
              status := some "active"
              lastUpdate := some now } now
    | none => (store ++ [flutterNewDriver data now], 1)
  else
    (store ++ [flutterNewDriver data now], 1)

/-- The `onMessage` handler of `DriverTracking.tsx`.  `raw = none` models a
payload on which `JSON.parse` throws (the `catch` logs an error and leaves the
store alone).  Returns the new store, the number of "new driver" toasts, and
whether an error was logged.  The second branch reproduces the source's
unreachable `else if (data.type === 'driver_location_update' && data.driver)`
arm. -/
def onMessage (raw : Option WireMsg) (store : List Driver) (now : ℤ) :
    List Driver × Nat × Bool :=
  match raw with
  | none => (store, 0, true)
  | some data =>
    if data.type = "driver_location_update" then
      let r := processFlutterUpdate data store now
      (r.1, r.2, false)
    else if data.type = "driver_location_update" ∧ data.driver.isSome then
      match data.driver with
      | some d => let r := updateDriverLocation store d now; (r.1, r.2, false)
      | none => (store, 0, false)
    else if data.type = "drivers_list" ∧ data.drivers.isSome then
      (data.drivers.getD [], 0, false)
    else
      (store, 0, false)

/-- The simulated-motion tick (DriverTracking.tsx `setInterval` body): every
driver in status "active" gets a perturbed location, its previous location
captured into `prevLocation`, and a fresh `lastUpdate`; other drivers are left
untouched.  `delta` supplies the per-driver random perturbation. -/
def simulatedTick (store : List Driver) (delta : String → ℚ × ℚ) (now : ℤ) :
    List Driver :=
  store.map (fun d =>
    if d.status = some "active" then
      { d with
          prevLocation := some d.location
          location :=
            { lat := d.location.lat.map (· + (delta d.id).1)
              lng := d.location.lng.map (· + (delta d.id).2) }
          lastUpdate := some now }
    else d)

/-- The ids currently stored, in store order. -/
def driverIds (store : List Driver) : List String :=
  store.map Driver.id

/-- One reconciliation step applied to the store: either a transport message
(`raw = none` for an unparsable payload) or a simulated-motion tick, together
with the wall-clock time at which it runs. -/
inductive ReconcileOp where
  | msg (raw : Option WireMsg) (now : ℤ)
  | tick (delta : String → ℚ × ℚ) (now : ℤ)

/-- Apply one reconciliation step to the store. -/
def applyOp (store : List Driver) : ReconcileOp → List Driver
  | .msg raw now => (onMessage raw store now).1
  | .tick delta now => simulatedTick store delta now

/-- Apply a sequence of reconciliation steps, left to right. -/
def applyOps (store : List Driver) : List ReconcileOp → List Driver
  | [] => store
  | op :: ops => applyOps (applyOp store op) ops

/-- The side conditions under which one step preserves id-uniqueness: a
full-list payload must itself be free of duplicate ids, and a synthesized
`flutter-` id must not already be stored. -/
def SafeOp (store : List Driver) : ReconcileOp → Prop
  | .msg none _ => True
  | .msg (some data) now =>
      (driverIds (data.drivers.getD [])).Nodup ∧
      (data.type = "driver_location_update" → strTruthy data.id = false →
        ("flutter-" ++ toString now) ∉ driverIds store)
  | .tick _ _ => True

/-- The side conditions of `SafeOp`, threaded through a whole sequence. -/
def SafeOps : List Driver → List ReconcileOp → Prop
  | _, [] => True
  | store, op :: ops => SafeOp store op ∧ SafeOps (applyOp store op) ops

/-! ## Position animator (MapView.tsx) -/

/-- `easeInOut` (MapView.tsx): `t < 0.5 ? 2*t*t : -1 + (4 - 2*t)*t`. -/
def easeInOut (t : ℚ) : ℚ :=
  if t < 1/2 then 2 * t * t else -1 + (4 - 2 * t) * t

/-- The normalized progress of a frame: `Math.min(elapsed / duration, 1)`. -/
def animProgress (duration elapsed : ℚ) : ℚ :=
  min (elapsed / duration) 1

/-- The coordinate emitted by one animation frame:
`start + (end - start) * easeInOut(progress)`. -/
def animSample (start stop duration elapsed : ℚ) : ℚ :=
  start + (stop - start) * easeInOut (animProgress duration elapsed)

/-- The (lng, lat) pair emitted by one frame of `animateMarkerMovement`. -/
def animSamplePair (start stop : ℚ × ℚ) (duration elapsed : ℚ) : ℚ × ℚ :=
  (animSample start.1 stop.1 duration elapsed,
   animSample start.2 stop.2 duration elapsed)

/-- Whether the frame schedules a successor (`if (progress < 1)
requestAnimationFrame(animate)`). -/
def animReschedules (duration elapsed : ℚ) : Bool :=
  animProgress duration elapsed < 1

/-! ### Binary64 rounding of the final frame

`animSample` above is the exact-arithmetic reading of the interpolation
formula; the source computes it in IEEE-754 binary64, where each operation
rounds its exact result to 53 significant bits (round-to-nearest, ties to
even).  On the final frame the progress is exactly 1.0 (elapsed ≥ duration
makes `Math.min(elapsed / duration, 1)` return the literal 1) and
`easeInOut(1.0)` is computed on small integers, hence exactly 1.0, so the
marker receives fl(start + fl(stop − start)).  The model below restricts the
rounding to integer values, which is all the failing input needs: integer
coordinates of magnitude below 2^53 are exactly representable doubles, and
the exact sum and difference of such doubles are again integers. -/

/-- The number of bits of a natural number in excess of 53 significant bits:
the smallest k with `a < 2 ^ (53 + k)`, found by halving.  The fuel 2100
covers the whole binary64 exponent range. -/
def excessBits : ℕ → ℕ → ℕ
  | _, 0 => 0
  | a, fuel + 1 => if a < 2 ^ 53 then 0 else excessBits (a / 2) fuel + 1

/-- IEEE-754 binary64 round-to-nearest-even restricted to integer values in
the normal exponent range: a magnitude below 2^53 is exact; a larger value is
rounded to the nearest multiple of 2^k (k its excess bits), a tie going to
the even significand.  Rounding is symmetric in the sign. -/
def roundSig53 (n : ℤ) : ℤ :=
  let a := n.natAbs
  let k := excessBits a 2100
  if k = 0 then n
  else
    let p := 2 ^ k
    let m := a / p
    let r := a % p
    let half := p / 2
    let sig := if r < half then m
               else if half < r then m + 1
               else if m % 2 = 0 then m else m + 1
    if n < 0 then -((sig * p : ℕ) : ℤ) else ((sig * p : ℕ) : ℤ)

/-- The coordinate the marker receives on the final animation frame when the
interpolation is computed in binary64 on integer-valued coordinates:
fl(start + fl(stop − start)), the rounded sum of the start coordinate and the
rounded difference (the factor easeInOut(1.0) = 1.0 is exact). -/
def animFinalSampleDbl (start stop : ℤ) : ℤ :=
  roundSig53 (start + roundSig53 (stop - start))

/-! ### Animation scheduling (cancellation semantics)

An operational model of `requestAnimationFrame` / `cancelAnimationFrame` as
used by `animateMarkerMovement`: `pending` is the set of scheduled frame
callbacks (handle, marker id, run id), `stored` is `markerAnimations.current`
(the last handle scheduled for each marker), `markers` is
`markers.current`. -/

/-- Update an association list at a key, inserting if absent. -/
def assocSet : List (String × Nat) → String → Nat → List (String × Nat)
  | [], k, v => [(k, v)]
  | (k', v') :: rest, k, v =>
    if k' = k then (k, v) :: rest else (k', v') :: assocSet rest k v

/-- Look up an association list. -/
def assocGet : List (String × Nat) → String → Option Nat
  | [], _ => none
  | (k', v') :: rest, k => if k' = k then some v' else assocGet rest k

/-- The scheduler state of the marker animation machinery. -/
structure AnimState where
  markers : List String
  counter : Nat
  pending : List (Nat × String × Nat)
  stored : List (String × Nat)
deriving DecidableEq, Repr

/-- `animateMarkerMovement` entry (MapView.tsx lines 406-414, 456): bail out
when the marker does not exist; otherwise cancel the frame handle stored for
this marker, schedule the first frame of the new run and remember its
handle. -/
def animStart (s : AnimState) (id : String) (run : Nat) : AnimState :=
  if id ∈ s.markers then
    let cancelled :=
      match assocGet s.stored id with
      | some h => s.pending.filter (fun e => e.1 ≠ h)
      | none => s.pending
    { s with
        pending := cancelled ++ [(s.counter, id, run)]
        stored := assocSet s.stored id s.counter
        counter := s.counter + 1 }
  else s

/-- One frame callback firing (the `animate` closure): if the handle is still
pending it is consumed, a sample of its run is emitted, and — unless the run
reached progress 1 (`done`) — a successor frame is scheduled and its handle
stored.  Returns the new state and the emitted (marker id, run id) sample, if
any. -/
def animFire (s : AnimState) (h : Nat) (done : Bool) :
    AnimState × Option (String × Nat) :=
  match s.pending.find? (fun e => e.1 = h) with
  | none => (s, none)
  | some e =>
    let p := s.pending.filter (fun e' => e'.1 ≠ h)
    if done then
      ({ s with pending := p }, some (e.2.1, e.2.2))
    else
      ({ s with
          pending := p ++ [(s.counter, e.2.1, e.2.2)]
          stored := assocSet s.stored e.2.1 s.counter
          counter := s.counter + 1 }, some (e.2.1, e.2.2))

/-- Fire a sequence of frame events, collecting the emitted samples. -/
def animFireSeq (s : AnimState) : List (Nat × Bool) →
    AnimState × List (String × Nat)
  | [] => (s, [])
  | (h, done) :: evs =>
    let r := animFire s h done
    let rest := animFireSeq r.1 evs
    (rest.1, r.2.toList ++ rest.2)

/-- The scheduler invariant maintained by the animation machinery: pending
handles are distinct and below the counter, and every pending frame's handle
is the one stored for its marker. -/
def AnimInv (s : AnimState) : Prop :=
  (s.pending.map (fun e => e.1)).Nodup ∧
  (∀ e ∈ s.pending, e.1 < s.counter) ∧
  (∀ e ∈ s.pending, assocGet s.stored e.2.1 = some e.1)

/-! ## Transport adapter reconnect policy (useWebSocket.ts) -/

/-- The default retry budget (`reconnectAttempts = 5`). -/
def reconnectAttempts : Nat := 5

/-- The default retry delay in milliseconds (`reconnectInterval = 5000`). -/
def reconnectInterval : Nat := 5000

/-- The observable reconnect-policy state: the attempt counter
(`reconnectCount`), whether a reconnect timeout is outstanding, the delays of
every reconnect attempt scheduled so far, and how many terminal
"failed to reconnect" notices were surfaced. -/
structure WSState where
  count : Nat
  pending : Bool
  scheduledDelays : List Nat
  exhaustedNotices : Nat
deriving DecidableEq, Repr

/-- The freshly-constructed hook state. -/
def wsInit : WSState :=
  { count := 0, pending := false, scheduledDelays := [], exhaustedNotices := 0 }

/-- The transport events that drive the retry policy. -/
inductive WSEvent where
  | open_
  | close (wasClean : Bool)
  | timeoutFire
  | manualReconnect
deriving DecidableEq, Repr

/-- One step of the policy (useWebSocket.ts): `onopen` resets the counter;
`onclose` on an unclean close below the budget increments the counter and
schedules exactly one reconnect after `reconnectInterval` (clearing any prior
timeout), while any close with the counter at the budget surfaces the
terminal notice and schedules nothing; the timeout firing runs `connect()`;
`reconnect()` resets the counter and connects. -/
def wsStep (s : WSState) : WSEvent → WSState
  | .open_ => { s with count := 0 }
  | .close wasClean =>
    if ¬wasClean ∧ s.count < reconnectAttempts then
      { s with
          count := s.count + 1
          pending := true
          scheduledDelays := s.scheduledDelays ++ [reconnectInterval] }
    else if reconnectAttempts ≤ s.count then
      { s with exhaustedNotices := s.exhaustedNotices + 1 }
    else s
  | .timeoutFire => { s with pending := false }
  | .manualReconnect => { s with count := 0 }

/-- Run a sequence of transport events. -/
def wsRun (s : WSState) : List WSEvent → WSState
  | [] => s
  | e :: es => wsRun (wsStep s e) es

/-! ## Staleness evaluator (MapView.tsx / DriversList.tsx) -/

/-- `isDriverStale`: `if (!driver.lastUpdate) return false; return now -
driver.lastUpdate > 2 * 60 * 1000`.  A timestamp of `0` is falsy in
JavaScript, so it takes the early-return branch. -/
def isDriverStale (d : Driver) (now : ℤ) : Bool :=
  match d.lastUpdate with
  | none => false
  | some t => if t = 0 then false else decide (now - t > 2 * 60 * 1000)

/-! ## Concrete fixtures used by counterexamples and witnesses -/

/-- A stored driver record mirroring the seeded driver with id "1" at the
Baghdad coordinates (33.3152, 44.3661). -/
def seed1 : Driver :=
  { id := "1"
    name := some "John Doe"
    vehicle := some "Delivery Van"
    status := some "active"
    location := { lat := some 33.3152, lng := some 44.3661 }
    prevLocation := none
    phone := some "+964 750 123 4567"
    currentDelivery := some none
    lastUpdate := some 1 }

/-- The driver record with id "1" as it appears inside a replacement list:
moved to (33.3252, 44.3761), carrying no prevLocation of its own. -/
def seed1Moved : Driver :=
  { seed1 with location := { lat := some 33.3252, lng := some 44.3761 } }

/-- A drivers_list message whose payload shares id "1" with the stored
record. -/
def listMsgMoved : WireMsg :=
  { type := "drivers_list", driver := none, drivers := some [seed1Moved]
    lat := none, lng := none, name := none, phone := none, id := none }

/-- A patch carrying only the identity and a new location, as in the spec
scenario: apply patch with id "1" and location (33.3252, 44.3761). -/
def patchMove1 : Driver :=
  { id := "1", name := none, vehicle := none, status := none
    location := { lat := some 33.3252, lng := some 44.3761 }
    prevLocation := none, phone := none, currentDelivery := none
    lastUpdate := none }

/-- A driver_location_update message carrying a full driver under the nested
driver field and none of the flat flutter fields. -/
def msgNestedDriver : WireMsg :=
  { type := "driver_location_update", driver := some seed1Moved
    drivers := none, lat := none, lng := none, name := none, phone := none
    id := none }

/-- A driver_location_update message missing the required lat and lng fields
(and everything else). -/
def msgMissingLatLng : WireMsg :=
  { type := "driver_location_update", driver := none, drivers := none
    lat := none, lng := none, name := none, phone := none, id := none }

/-- A message whose type matches no recognized branch. -/
def msgUnknownType : WireMsg :=
  { type := "ping", driver := none, drivers := none
    lat := none, lng := none, name := none, phone := none, id := none }

/-- A flutter update with a fresh id "9". -/
def msgFlutter9 : WireMsg :=
  { type := "driver_location_update", driver := none, drivers := none
    lat := some 10, lng := some 20, name := some "Ann", phone := some "p"
    id := some "9" }

/-- Two distinct records sharing the id "7". -/
def dupA : Driver :=
  { id := "7", name := some "A", vehicle := none, status := some "active"
    location := { lat := some 1, lng := some 2 }
    prevLocation := none, phone := none, currentDelivery := some none
    lastUpdate := some 2 }

/-- Second record with the same id "7" but a different name. -/
def dupB : Driver :=
  { dupA with name := some "B" }

/-- A drivers_list message whose payload itself contains a duplicated id. -/
def dupListMsg : WireMsg :=
  { type := "drivers_list", driver := none, drivers := some [dupA, dupB]
    lat := none, lng := none, name := none, phone := none, id := none }

/-- A driver record whose lastUpdate is the (falsy) timestamp 0. -/
def driverZeroStamp : Driver :=
  { id := "z", name := none, vehicle := none, status := some "active"
    location := { lat := none, lng := none }
    prevLocation := none, phone := none, currentDelivery := some none
    lastUpdate := some 0 }

/-! ## Theorems -/

/-- C1 (counterexample): a full-list update does not carry the prior location
forward into prevLocation.  Store holds driver "1" at (33.3152, 44.3661); the
replacement list carries driver "1" at a new location with no prevLocation.
The claim demands the reconciled record keep prevLocation equal to the old
location; the code replaces the array verbatim, so prevLocation is absent. -/
theorem driversList_no_prevLocation_carry :
    (onMessage (some listMsgMoved) [seed1] 7).1 = [seed1Moved] ∧
    seed1Moved.id = seed1.id ∧
    seed1Moved.prevLocation = none ∧
    seed1Moved.prevLocation ≠ some seed1.location := by
  refine ⟨rfl, rfl, rfl, ?_⟩
  simp [seed1Moved, seed1]

/-- C1 (amended): a drivers_list message replaces the store with the carried
array verbatim: afterwards the store is exactly the new list (so every
previously stored id absent from the new list is gone), and each record keeps
exactly the prevLocation the incoming record carries — no carry-forward of
the prior stored location happens. -/
theorem driversList_replaces_store (data : WireMsg) (store : List Driver)
    (now : ℤ) (l : List Driver)
    (hty : data.type = "drivers_list") (hl : data.drivers = some l) :
    (onMessage (some data) store now).1 = l ∧
    (∀ s ∈ store, s.id ∉ driverIds l →
      s.id ∉ driverIds (onMessage (some data) store now).1) ∧
    (∀ r ∈ (onMessage (some data) store now).1, r ∈ l) := by
  have hres : (onMessage (some data) store now).1 = l := by
    simp [onMessage, hty, hl]
  refine ⟨hres, ?_, ?_⟩
  · intro s _ hnot
    rw [hres]; exact hnot
  · intro r hr
    rw [hres] at hr; exact hr

/-- C1 (witness): the amended theorem applied to the concrete replacement of
the stored driver "1". -/
theorem driversList_replaces_store_witness :
    (onMessage (some listMsgMoved) [seed1] 7).1 = [seed1Moved] ∧
    (∀ s ∈ [seed1], s.id ∉ driverIds [seed1Moved] →
      s.id ∉ driverIds (onMessage (some listMsgMoved) [seed1] 7).1) ∧
    (∀ r ∈ (onMessage (some listMsgMoved) [seed1] 7).1, r ∈ [seed1Moved]) :=
  driversList_replaces_store listMsgMoved [seed1] 7 [seed1Moved] rfl rfl

/-- C2 (code_bug evaluation): dispatch for driver_location_update never
reaches the nested-driver branch.  A message carrying a full driver under the
nested driver field (same id "1" as the stored record) is routed to
processFlutterUpdate, which ignores the nested record: the stored driver "1"
is left untouched and a fresh "flutter-9" driver with undefined coordinates
is appended instead of merging the nested driver. -/
theorem nested_driver_message_misrouted :
    (onMessage (some msgNestedDriver) [seed1] 9).1 =
      [seed1, flutterNewDriver msgNestedDriver 9] ∧
    msgNestedDriver.driver = some seed1Moved ∧
    seed1Moved.id = seed1.id ∧
    (flutterNewDriver msgNestedDriver 9).id = "flutter-9" ∧
    (flutterNewDriver msgNestedDriver 9).location =
      { lat := none, lng := none } ∧
    (onMessage (some msgNestedDriver) [seed1] 9).1 ≠
      (updateDriverLocation [seed1] seed1Moved 9).1 := by
  refine ⟨rfl, rfl, rfl, rfl, rfl, ?_⟩
  simp [onMessage, msgNestedDriver, processFlutterUpdate, strTruthy,
    updateDriverLocation, seed1, seed1Moved, flutterNewDriver, spreadMerge]

/-- C3: a patch whose id matches a stored record (first occurrence old,
records before it carrying other ids) replaces exactly that record with the
shallow merge of the provided fields over the prior record, with prevLocation
set to the location the record had before the merge and lastUpdate stamped to
the current time; no toast is raised and all other records are untouched. -/
theorem patch_existing_shallow_merge (pre post : List Driver) (old p : Driver)
    (now : ℤ) (hid : old.id = p.id) (hpre : ∀ d ∈ pre, d.id ≠ p.id) :
    ∃ m, (updateDriverLocation (pre ++ old :: post) p now).1 =
        pre ++ m :: post ∧
      (updateDriverLocation (pre ++ old :: post) p now).2 = 0 ∧
      m.prevLocation = some old.location ∧
      m.lastUpdate = some now ∧
      m.location = p.location ∧
      m.id = p.id ∧
      m.name = (p.name <|> old.name) ∧
      m.vehicle = (p.vehicle <|> old.vehicle) ∧
      m.status = (p.status <|> old.status) ∧
      m.phone = (p.phone <|> old.phone) ∧
      m.currentDelivery = (p.currentDelivery <|> old.currentDelivery) := by
  induction pre with
  | nil =>
    refine ⟨{ spreadMerge old p with
        prevLocation := some old.location, lastUpdate := some now }, ?_⟩
    simp [updateDriverLocation, hid, spreadMerge]
  | cons d ds ih =>
    have hd : d.id ≠ p.id := hpre d (List.mem_cons_self d ds)
    have hds : ∀ d' ∈ ds, d'.id ≠ p.id := fun d' h' =>
      hpre d' (List.mem_cons_of_mem d h')
    obtain ⟨m, hm1, hm2, hmrest⟩ := ih hds
    refine ⟨m, ?_, ?_, hmrest⟩
    · simp [updateDriverLocation, hd, hm1]
    · simp [updateDriverLocation, hd, hm2]

/-- C3 (witness): the spec scenario — store seeded with driver "1" at
(33.3152, 44.3661), patched with id "1" and location (33.3252, 44.3761);
the merged record has prevLocation (33.3152, 44.3661), location
(33.3252, 44.3761) and a fresh lastUpdate. -/
theorem patch_existing_shallow_merge_witness :
    ∃ m, (updateDriverLocation ([] ++ seed1 :: []) patchMove1 99).1 =
        [] ++ m :: [] ∧
      (updateDriverLocation ([] ++ seed1 :: []) patchMove1 99).2 = 0 ∧
      m.prevLocation = some seed1.location ∧
      m.lastUpdate = some 99 ∧
      m.location = patchMove1.location ∧
      m.id = patchMove1.id ∧
      m.name = (patchMove1.name <|> seed1.name) ∧
      m.vehicle = (patchMove1.vehicle <|> seed1.vehicle) ∧
      m.status = (patchMove1.status <|> seed1.status) ∧
      m.phone = (patchMove1.phone <|> seed1.phone) ∧
      m.currentDelivery = (patchMove1.currentDelivery <|> seed1.currentDelivery) :=
  patch_existing_shallow_merge [] [] seed1 patchMove1 99 rfl
    (fun d hd => absurd hd (List.not_mem_nil d))

/-- C4: a driver_location_update whose id matches no stored record (or carries
no id) appends exactly one new driver at the end of the store — status
"active", currentDelivery null, lastUpdate stamped to the current time, id the
given one or the synthesized flutter token — raises exactly one "new driver
connected" toast, and leaves every existing record untouched. -/
theorem patch_unknown_id_appends_new (data : WireMsg) (store : List Driver)
    (now : ℤ) (hty : data.type = "driver_location_update")
    (hnew : ∀ d ∈ store, some d.id ≠ data.id) :
    (onMessage (some data) store now).1 =
      store ++ [flutterNewDriver data now] ∧
    (onMessage (some data) store now).2.1 = 1 ∧
    (flutterNewDriver data now).status = some "active" ∧
    (flutterNewDriver data now).currentDelivery = some none ∧
    (flutterNewDriver data now).lastUpdate = some now ∧
    (flutterNewDriver data now).id =
      jsOrStrD data.id ("flutter-" ++ toString now) := by
  have hfind : store.find? (fun d => some d.id = data.id) = none := by
    rw [List.find?_eq_none]
    intro d hd
    simp [hnew d hd]
  have hproc : processFlutterUpdate data store now =
      (store ++ [flutterNewDriver data now], 1) := by
    unfold processFlutterUpdate
    rw [hfind]
    by_cases h : strTruthy data.id <;> simp [h]
  refine ⟨?_, ?_, rfl, rfl, rfl, rfl⟩ <;> simp [onMessage, hty, hproc]

/-- C4 (witness): a flutter update with the unknown id "9" appended to the
store holding only driver "1". -/
theorem patch_unknown_id_appends_new_witness :
    (onMessage (some msgFlutter9) [seed1] 5).1 =
      [seed1] ++ [flutterNewDriver msgFlutter9 5] ∧
    (onMessage (some msgFlutter9) [seed1] 5).2.1 = 1 ∧
    (flutterNewDriver msgFlutter9 5).status = some "active" ∧
    (flutterNewDriver msgFlutter9 5).currentDelivery = some none ∧
    (flutterNewDriver msgFlutter9 5).lastUpdate = some 5 ∧
    (flutterNewDriver msgFlutter9 5).id =
      jsOrStrD msgFlutter9.id ("flutter-" ++ toString (5 : ℤ)) :=
  patch_unknown_id_appends_new msgFlutter9 [seed1] 5 rfl
    (by intro d hd; simp [msgFlutter9] at hd ⊢; rw [hd]; simp [seed1])

/-- After `updateDriverLocation`, the stored ids are unchanged when the patch
id was already present (first match replaced in place, keeping its id), and
gain exactly the patch id at the end when it was not. -/
theorem updateDriverLocation_ids (store : List Driver) (p : Driver) (now : ℤ) :
    (p.id ∈ driverIds store ∧
      driverIds (updateDriverLocation store p now).1 = driverIds store) ∨
    (p.id ∉ driverIds store ∧
      driverIds (updateDriverLocation store p now).1 =
        driverIds store ++ [p.id]) := by
  induction store with
  | nil =>
    right
    simp [updateDriverLocation, driverIds]
  | cons d ds ih =>
    by_cases hd : d.id = p.id
    · left
      constructor
      · simp [driverIds, hd]
      · simp [updateDriverLocation, hd, driverIds, spreadMerge]
    · rcases ih with ⟨hmem, heq⟩ | ⟨hmem, heq⟩
      · left
        constructor
        · simp [driverIds] at hmem ⊢; exact Or.inr hmem
        · simp [updateDriverLocation, hd, driverIds] at heq ⊢; exact heq
      · right
        constructor
        · simp [driverIds] at hmem ⊢
          exact ⟨fun h => hd h.symm, hmem⟩
        · simp [updateDriverLocation, hd, driverIds] at heq ⊢; exact heq

/-- `updateDriverLocation` preserves the absence of duplicate ids. -/
theorem updateDriverLocation_nodup (store : List Driver) (p : Driver)
    (now : ℤ) (h : (driverIds store).Nodup) :
    (driverIds (updateDriverLocation store p now).1).Nodup := by
  rcases updateDriverLocation_ids store p now with ⟨_, heq⟩ | ⟨hmem, heq⟩
  · rw [heq]; exact h
  · rw [heq]
    simp [List.nodup_append, h, hmem]

/-- A falsy incoming id makes `jsOrStrD` fall back to its default. -/
theorem jsOrStrD_of_falsy (x : Option String) (d : String)
    (h : strTruthy x = false) : jsOrStrD x d = d := by
  cases x with
  | none => rfl
  | some s =>
    simp [strTruthy] at h
    simp [jsOrStrD, h]

/-- Appending a record whose id is not yet stored keeps the ids
duplicate-free. -/
theorem nodup_append_fresh (store : List Driver) (nd : Driver)
    (h : (driverIds store).Nodup) (hnotin : nd.id ∉ driverIds store) :
    (driverIds (store ++ [nd])).Nodup := by
  simp only [driverIds, List.map_append, List.map_cons, List.map_nil] at *
  rw [List.nodup_append]
  refine ⟨h, List.nodup_singleton _, ?_⟩
  intro x hx hmem
  simp only [List.mem_singleton] at hmem
  subst hmem
  exact hnotin hx

/-- `processFlutterUpdate` preserves the absence of duplicate ids, provided a
synthesized flutter id does not collide with a stored one. -/
theorem processFlutterUpdate_nodup (data : WireMsg) (store : List Driver)
    (now : ℤ) (h : (driverIds store).Nodup)
    (hfresh : strTruthy data.id = false →
      ("flutter-" ++ toString now) ∉ driverIds store) :
    (driverIds (processFlutterUpdate data store now).1).Nodup := by
  unfold processFlutterUpdate
  by_cases ht : strTruthy data.id
  · simp only [ht, if_true]
    cases hfind : store.find? (fun d => some d.id = data.id) with
    | some ex => exact updateDriverLocation_nodup _ _ _ h
    | none =>
      have hnotin : (flutterNewDriver data now).id ∉ driverIds store := by
        cases hx : data.id with
        | none => simp [strTruthy, hx] at ht
        | some s =>
          have hs : s ≠ "" := by simpa [strTruthy, hx] using ht
          have hidval : (flutterNewDriver data now).id = s := by
            simp [flutterNewDriver, jsOrStrD, hx, hs]
          rw [hidval]
          intro hmem
          simp only [driverIds, List.mem_map] at hmem
          obtain ⟨d, hd, hdid⟩ := hmem
          have := List.find?_eq_none.mp hfind d hd
          simp [hx, hdid] at this
      exact nodup_append_fresh store _ h hnotin
  · simp only [ht]
    have hid : (flutterNewDriver data now).id = "flutter-" ++ toString now := by
      simp [flutterNewDriver, jsOrStrD_of_falsy _ _ (by simpa using ht)]
    have hnotin := hfresh (by simpa using ht)
    rw [← hid] at hnotin
    exact nodup_append_fresh store _ h hnotin

/-- The simulated tick never changes any stored id. -/
theorem simulatedTick_ids (store : List Driver) (delta : String → ℚ × ℚ)
    (now : ℤ) : driverIds (simulatedTick store delta now) = driverIds store := by
  simp only [driverIds, simulatedTick, List.map_map]
  congr 1
  funext d
  by_cases h : d.status = some "active" <;> simp [h]

/-- One message-handler call preserves the absence of duplicate ids under the
side conditions of `SafeOp`. -/
theorem onMessage_nodup (raw : Option WireMsg) (store : List Driver) (now : ℤ)
    (h : (driverIds store).Nodup)
    (hsafe : SafeOp store (.msg raw now)) :
    (driverIds (onMessage raw store now).1).Nodup := by
  cases raw with
  | none => exact h
  | some data =>
    obtain ⟨hlist, hflutter⟩ := hsafe
    simp only [onMessage]
    by_cases h1 : data.type = "driver_location_update"
    · rw [if_pos h1]
      exact processFlutterUpdate_nodup data store now h (hflutter h1)
    · rw [if_neg h1, if_neg (fun hc => h1 hc.1)]
      by_cases h3 : data.type = "drivers_list" ∧ data.drivers.isSome
      · rw [if_pos h3]
        exact hlist
      · rw [if_neg h3]
        exact h

/-- One reconciliation step preserves the absence of duplicate ids under the
side conditions of `SafeOp`. -/
theorem applyOp_nodup (store : List Driver) (op : ReconcileOp)
    (h : (driverIds store).Nodup) (hsafe : SafeOp store op) :
    (driverIds (applyOp store op)).Nodup := by
  cases op with
  | msg raw now => exact onMessage_nodup raw store now h hsafe
  | tick delta now =>
    show (driverIds (simulatedTick store delta now)).Nodup
    rw [simulatedTick_ids]
    exact h

/-- C5 (counterexample): from the duplicate-free empty store, a single
drivers_list message whose payload repeats id "7" leaves the store with two
records of the same id — the claimed invariant fails for this reconcile
sequence. -/
theorem duplicate_ids_via_drivers_list :
    (driverIds ([] : List Driver)).Nodup ∧
    ¬ (driverIds (applyOps []
        [ReconcileOp.msg (some dupListMsg) 0])).Nodup := by
  constructor
  · simp [driverIds]
  · simp [applyOps, applyOp, onMessage, dupListMsg, driverIds, dupA, dupB]

/-- C5 (amended): for every sequence of reconcile operations applied to an
initially duplicate-free store, the store never contains two records with the
same id, provided every full-list payload is itself free of duplicate ids and
every synthesized flutter id is fresh for the store it meets
(the `SafeOps` side conditions). -/
theorem no_duplicate_ids_of_safe_ops (store : List Driver)
    (ops : List ReconcileOp) (h0 : (driverIds store).Nodup)
    (hs : SafeOps store ops) :
    (driverIds (applyOps store ops)).Nodup := by
  induction ops generalizing store with
  | nil => exact h0
  | cons op rest ih =>
    obtain ⟨h1, h2⟩ := hs
    exact ih (applyOp store op) (applyOp_nodup store op h0 h1) h2

/-- C5 (witness): the amended theorem applied to a concrete safe sequence —
a full-list replacement, an update to a known id, a flutter update without an
id, and a simulated tick. -/
theorem no_duplicate_ids_of_safe_ops_witness :
    (driverIds ([seed1] : List Driver)).Nodup ∧
    SafeOps [seed1]
      [ReconcileOp.msg (some listMsgMoved) 3,
       ReconcileOp.msg (some msgFlutter9) 4,
       ReconcileOp.msg (some msgMissingLatLng) 5,
       ReconcileOp.tick (fun _ => (1, 1)) 6] ∧
    (driverIds (applyOps [seed1]
      [ReconcileOp.msg (some listMsgMoved) 3,
       ReconcileOp.msg (some msgFlutter9) 4,
       ReconcileOp.msg (some msgMissingLatLng) 5,
       ReconcileOp.tick (fun _ => (1, 1)) 6])).Nodup :=
  ⟨by simp [driverIds, seed1],
   by
    simp only [SafeOps, SafeOp, applyOps, applyOp]
    refine ⟨⟨?_, ?_⟩, ⟨?_, ?_⟩, ⟨?_, ?_⟩, trivial, trivial⟩ <;>
      simp [listMsgMoved, msgFlutter9, msgMissingLatLng, driverIds, seed1Moved,
        seed1, strTruthy, onMessage, processFlutterUpdate, flutterNewDriver,
        jsOrStrD, updateDriverLocation, spreadMerge] <;>
      decide,
   no_duplicate_ids_of_safe_ops [seed1] _
    (by simp [driverIds, seed1])
    (by
      simp only [SafeOps, SafeOp, applyOps, applyOp]
      refine ⟨⟨?_, ?_⟩, ⟨?_, ?_⟩, ⟨?_, ?_⟩, trivial, trivial⟩ <;>
        simp [listMsgMoved, msgFlutter9, msgMissingLatLng, driverIds,
          seed1Moved, seed1, strTruthy, onMessage, processFlutterUpdate,
          flutterNewDriver, jsOrStrD, updateDriverLocation, spreadMerge] <;>
        decide)⟩

/-- C6 (counterexample): a driver_location_update missing the required lat and
lng fields does not leave the store unchanged — against the empty store it
appends a driver with undefined coordinates. -/
theorem invalid_update_mutates_store :
    msgMissingLatLng.lat = none ∧ msgMissingLatLng.lng = none ∧
    (onMessage (some msgMissingLatLng) [] 0).1 ≠ [] ∧
    (onMessage (some msgMissingLatLng) [] 0).1 =
      [flutterNewDriver msgMissingLatLng 0] := by
  refine ⟨rfl, rfl, ?_, rfl⟩
  simp [onMessage, msgMissingLatLng, processFlutterUpdate, strTruthy]

/-- C6 (amended): undecodable JSON leaves the store unchanged and reports an
error; a message of unrecognized type leaves the store unchanged but is
dropped silently (no error reported); a driver_location_update missing
lat/lng is not validated — when its id matches no stored driver it is
processed as a flutter update and appends a record with undefined
coordinates.  No input makes the handler crash (it is a total function). -/
theorem error_handling_amended :
    (∀ store : List Driver, ∀ now : ℤ,
      onMessage none store now = (store, 0, true)) ∧
    (∀ data : WireMsg, ∀ store : List Driver, ∀ now : ℤ,
      data.type ≠ "driver_location_update" → data.type ≠ "drivers_list" →
      onMessage (some data) store now = (store, 0, false)) ∧
    (∀ data : WireMsg, ∀ store : List Driver, ∀ now : ℤ,
      data.type = "driver_location_update" →
      (∀ d ∈ store, some d.id ≠ data.id) →
      (onMessage (some data) store now).1 =
        store ++ [flutterNewDriver data now]) := by
  refine ⟨?_, ?_, ?_⟩
  · intro store now
    rfl
  · intro data store now h1 h2
    simp [onMessage, h1, h2]
  · intro data store now hty hnew
    have hfind : store.find? (fun d => some d.id = data.id) = none := by
      rw [List.find?_eq_none]
      intro d hd
      simp [hnew d hd]
    simp only [onMessage, processFlutterUpdate, hfind, hty]
    by_cases h : strTruthy data.id <;> simp [h]

/-- C6 (witness): the amended theorem applied to the seeded store — an
unparsable payload and a "ping" message leave it unchanged, and the
lat/lng-free driver_location_update appends the undefined-coordinate
record. -/
theorem error_handling_amended_witness :
    onMessage none [seed1] 3 = ([seed1], 0, true) ∧
    onMessage (some msgUnknownType) [seed1] 3 = ([seed1], 0, false) ∧
    (onMessage (some msgMissingLatLng) [seed1] 3).1 =
      [seed1] ++ [flutterNewDriver msgMissingLatLng 3] :=
  ⟨error_handling_amended.1 [seed1] 3,
   error_handling_amended.2.1 msgUnknownType [seed1] 3 (by decide) (by decide),
   error_handling_amended.2.2 msgMissingLatLng [seed1] 3 rfl
     (by intro d hd; simp [msgMissingLatLng])⟩

/-- C7 (code_bug evaluation): the final animation frame does not reproduce
the target exactly in binary64.  For start coordinate 10^16 and target 1,
the frame computes fl(start + fl(to − start)): the exact difference
1 − 10^16 = −9999999999999999 carries 54 significant bits, and
round-to-nearest-even sends it to −10^16 (the tie goes to the even
significand 5·10^15), so the emitted coordinate is
fl(10^16 − 10^16) = 0, not the target 1.  In exact arithmetic the same
formula would give the target exactly — the residual is purely the
binary64 rounding that the code goes through instead of snapping to `to`
once elapsed ≥ duration. -/
theorem animation_final_sample_float_residual :
    animFinalSampleDbl (10 ^ 16) 1 = 0 ∧
    animFinalSampleDbl (10 ^ 16) 1 ≠ 1 ∧
    roundSig53 (1 - 10 ^ 16) = -(10 ^ 16) ∧
    animSample ((10 : ℚ) ^ 16) 1 3000 3000 = 1 := by
  refine ⟨by decide, by decide, by decide, ?_⟩
  norm_num [animSample, animProgress, easeInOut]

/-- C10 (counterexample): a driver whose lastUpdate timestamp is present but
equal to 0 is reported fresh at now = 200000, although
now - lastUpdate = 200000 > 120000: the JavaScript falsiness check
!driver.lastUpdate also catches the timestamp 0, where the claim demands the
threshold comparison for every present timestamp. -/
theorem stale_zero_timestamp :
    driverZeroStamp.lastUpdate = some 0 ∧
    ((200000 : ℤ) - 0 > 120000) ∧
    isDriverStale driverZeroStamp 200000 = false := by
  refine ⟨rfl, by norm_num, rfl⟩

/-- C10 (amended): isDriverStale is false whenever lastUpdate is absent or
equal to the falsy timestamp 0; for every nonzero timestamp it is true
exactly when now - lastUpdate > 120000 ms (so false at exactly 120000), it is
monotone in the elapsed difference, and it is a pure function of the record
and the clock. -/
theorem isDriverStale_characterization :
    (∀ d : Driver, ∀ now : ℤ, d.lastUpdate = none →
      isDriverStale d now = false) ∧
    (∀ d : Driver, ∀ now : ℤ, d.lastUpdate = some 0 →
      isDriverStale d now = false) ∧
    (∀ d : Driver, ∀ now t : ℤ, d.lastUpdate = some t → t ≠ 0 →
      (isDriverStale d now = true ↔ now - t > 120000)) ∧
    (∀ d : Driver, ∀ t : ℤ, d.lastUpdate = some t →
      (isDriverStale d (t + 120000) = false)) ∧
    (∀ d : Driver, ∀ t n1 n2 : ℤ, d.lastUpdate = some t → n1 ≤ n2 →
      isDriverStale d n1 = true → isDriverStale d n2 = true) := by
  refine ⟨?_, ?_, ?_, ?_, ?_⟩
  · intro d now h
    simp [isDriverStale, h]
  · intro d now h
    simp [isDriverStale, h]
  · intro d now t h ht
    simp only [isDriverStale, h, if_neg ht]
    norm_num
  · intro d t h
    by_cases ht : t = 0
    · simp [isDriverStale, h, ht]
    · simp only [isDriverStale, h, if_neg ht]
      simp
  · intro d t n1 n2 h hle h1
    by_cases ht : t = 0
    · simp [isDriverStale, h, ht] at h1
    · simp only [isDriverStale, h, if_neg ht] at h1 ⊢
      simp only [decide_eq_true_eq] at h1 ⊢
      omega

/-- C10 (witness): the amended characterization applied to a record stamped
at t = 1: fresh at now = 120001 (difference exactly 120000), stale at
now = 120002, monotone from there on, and always fresh for the absent and the
zero timestamp. -/
theorem isDriverStale_characterization_witness :
    isDriverStale { driverZeroStamp with lastUpdate := none } 99 = false ∧
    isDriverStale driverZeroStamp 99 = false ∧
    (isDriverStale { driverZeroStamp with lastUpdate := some 1 } 120002 = true
      ↔ (120002 : ℤ) - 1 > 120000) ∧
    isDriverStale { driverZeroStamp with lastUpdate := some 1 }
      (1 + 120000) = false ∧
    isDriverStale { driverZeroStamp with lastUpdate := some 1 }
      999999 = true :=
  ⟨isDriverStale_characterization.1 _ 99 rfl,
   isDriverStale_characterization.2.1 _ 99 rfl,
   isDriverStale_characterization.2.2.1 _ 120002 1 rfl (by norm_num),
   isDriverStale_characterization.2.2.2.1 _ 1 rfl,
   isDriverStale_characterization.2.2.2.2 _ 1 120002 999999 rfl (by norm_num)
     ((isDriverStale_characterization.2.2.1 _ 120002 1 rfl
        (by norm_num)).mpr (by norm_num))⟩

/-- C9 (counterexample): five consecutive unclean closes from a fresh
connection schedule exactly five reconnect attempts (each after 5000 ms) but
surface no terminal exhaustion notice yet — the notice only fires on a later
close, contrary to the claim that it is surfaced after the 5th close. -/
theorem no_exhaustion_notice_after_five_closes :
    (wsRun wsInit (List.replicate 5 (WSEvent.close false))).scheduledDelays =
      List.replicate 5 5000 ∧
    (wsRun wsInit (List.replicate 5 (WSEvent.close false))).count = 5 ∧
    (wsRun wsInit
      (List.replicate 5 (WSEvent.close false))).exhaustedNotices = 0 := by
  refine ⟨by decide, by decide, by decide⟩

/-- C9 (amended): every unclean close below the budget of 5 schedules exactly
one reconnect after the fixed 5000 ms interval and increments the counter; a
clean close neither schedules nor counts; a successful open and a manual
reconnect reset the counter; after 5 consecutive unclean closes exactly 5
attempts have been scheduled and no notice has surfaced; the terminal
exhaustion notice surfaces on the next (6th) unclean close, which schedules
no further attempt. -/
theorem reconnect_policy_amended :
    (∀ s : WSState, s.count < reconnectAttempts →
      wsStep s (.close false) =
        { s with
            count := s.count + 1
            pending := true
            scheduledDelays := s.scheduledDelays ++ [reconnectInterval] }) ∧
    (∀ s : WSState,
      (wsStep s (.close true)).scheduledDelays = s.scheduledDelays ∧
      (wsStep s (.close true)).pending = s.pending ∧
      (wsStep s (.close true)).count = s.count) ∧
    (∀ s : WSState, (wsStep s .open_).count = 0) ∧
    (∀ s : WSState, (wsStep s .manualReconnect).count = 0) ∧
    ((wsRun wsInit (List.replicate 5 (.close false))).count = 5 ∧
     (wsRun wsInit (List.replicate 5 (.close false))).scheduledDelays =
       List.replicate 5 5000 ∧
     (wsRun wsInit (List.replicate 5 (.close false))).exhaustedNotices = 0) ∧
    ((wsRun wsInit (List.replicate 6 (.close false))).scheduledDelays =
       List.replicate 5 5000 ∧
     (wsRun wsInit (List.replicate 6 (.close false))).exhaustedNotices = 1) := by
  refine ⟨?_, ?_, ?_, ?_, ⟨by decide, by decide, by decide⟩,
    by decide, by decide⟩
  · intro s h
    simp [wsStep, h]
  · intro s
    simp only [wsStep]
    split_ifs <;> simp_all
  · intro s
    rfl
  · intro s
    rfl

/-- C9 (witness): the amended theorem applied to the fresh state — the first
unclean close increments the counter to 1 and schedules one attempt after
5000 ms. -/
theorem reconnect_policy_amended_witness :
    wsInit.count < reconnectAttempts ∧
    wsStep wsInit (WSEvent.close false) =
      { wsInit with
          count := wsInit.count + 1
          pending := true
          scheduledDelays := wsInit.scheduledDelays ++ [reconnectInterval] } :=
  ⟨by decide, reconnect_policy_amended.1 wsInit (by decide)⟩

/-- Looking up the key just set returns the new handle. -/
theorem assocGet_set_self (l : List (String × Nat)) (k : String) (v : Nat) :
    assocGet (assocSet l k v) k = some v := by
  induction l with
  | nil => simp [assocSet, assocGet]
  | cons p rest ih =>
    by_cases h : p.1 = k
    · simp [assocSet, assocGet, h]
    · simp [assocSet, assocGet, h, ih]

/-- Setting one key leaves every other key's lookup unchanged. -/
theorem assocGet_set_other (l : List (String × Nat)) (k k' : String) (v : Nat)
    (h : k' ≠ k) : assocGet (assocSet l k v) k' = assocGet l k' := by
  have hk : ¬ k = k' := fun hh => h hh.symm
  induction l with
  | nil => simp only [assocSet, assocGet, if_neg hk]
  | cons p rest ih =>
    by_cases hp : p.1 = k
    · have hp' : ¬ p.1 = k' := by rw [hp]; exact hk
      simp only [assocSet, assocGet, if_pos hp, if_neg hk, if_neg hp']
    · simp only [assocSet, assocGet, if_neg hp, ih]

/-- A duplicate-free list whose elements are all equal has at most one
element. -/
theorem length_le_one_of_nodup_const {α : Type} (l : List α) (a : α)
    (hnd : l.Nodup) (hall : ∀ x ∈ l, x = a) : l.length ≤ 1 := by
  cases l with
  | nil => simp
  | cons x xs =>
    cases xs with
    | nil => simp
    | cons y ys =>
      exfalso
      have hx := hall x (by simp)
      have hy := hall y (by simp)
      subst hx
      rw [hy] at hnd
      simp [List.nodup_cons] at hnd

/-- The running property of an animation handed to the scheduler: the
invariant holds and every pending frame for the marker belongs to the given
run. -/
def animGood (s : AnimState) (id : String) (run : Nat) : Prop :=
  AnimInv s ∧ ∀ e ∈ s.pending, e.2.1 = id → e.2.2 = run

/-- Under the invariant, the scheduler holds at most one pending frame per
marker id. -/
theorem pending_per_id_le_one (s : AnimState) (id : String)
    (hinv : AnimInv s) :
    (s.pending.filter (fun e => e.2.1 = id)).length ≤ 1 := by
  obtain ⟨hnd, _, hst⟩ := hinv
  cases hg : assocGet s.stored id with
  | none =>
    have : s.pending.filter (fun e => e.2.1 = id) = [] := by
      rw [List.filter_eq_nil_iff]
      intro e he
      simp only [decide_eq_true_eq]
      intro hid
      have := hst e he
      rw [hid, hg] at this
      exact Option.noConfusion this
    simp [this]
  | some h =>
    have hsub : ((s.pending.filter (fun e => e.2.1 = id)).map
        (fun e => e.1)).Nodup :=
      ((List.filter_sublist s.pending).map (fun e => e.1)).nodup hnd
    have hall : ∀ x ∈ (s.pending.filter (fun e => e.2.1 = id)).map
        (fun e => e.1), x = h := by
      intro x hx
      simp only [List.mem_map, List.mem_filter, decide_eq_true_eq] at hx
      obtain ⟨e, ⟨he, hid⟩, hex⟩ := hx
      have := hst e he
      rw [hid, hg] at this
      rw [← hex]
      exact (Option.some_inj.mp this).symm
    have := length_le_one_of_nodup_const _ h hsub hall
    simpa using this

/-- Starting an animation under the invariant cancels every pending frame of
the marker and schedules exactly one frame of the new run; the invariant and
the single-run property hold afterwards. -/
theorem animStart_good (s : AnimState) (id : String) (run : Nat)
    (hinv : AnimInv s) (hm : id ∈ s.markers) :
    animGood (animStart s id run) id run ∧
    (animStart s id run).pending.filter (fun e => e.2.1 = id) =
      [(s.counter, id, run)] := by
  obtain ⟨hnd, hlt, hst⟩ := hinv
  cases hg : assocGet s.stored id with
  | none =>
    have hno : ∀ e ∈ s.pending, e.2.1 ≠ id := by
      intro e he hid
      have := hst e he
      rw [hid, hg] at this
      exact Option.noConfusion this
    simp only [animStart, if_pos hm, hg]
    refine ⟨⟨⟨?_, ?_, ?_⟩, ?_⟩, ?_⟩
    · simp only [List.map_append, List.map_cons, List.map_nil]
      rw [List.nodup_append]
      refine ⟨hnd, List.nodup_singleton _, ?_⟩
      intro x hx hx1
      simp only [List.mem_singleton] at hx1
      subst hx1
      simp only [List.mem_map] at hx
      obtain ⟨e, he, hex⟩ := hx
      exact absurd hex (Nat.ne_of_lt (hlt e he))
    · intro e he
      simp only [List.mem_append, List.mem_singleton] at he
      rcases he with he | he
      · exact Nat.lt_succ_of_lt (hlt e he)
      · subst he; exact Nat.lt_succ_self _
    · intro e he
      simp only [List.mem_append, List.mem_singleton] at he
      rcases he with he | he
      · rw [assocGet_set_other _ _ _ _ (hno e he)]
        exact hst e he
      · subst he
        exact assocGet_set_self _ _ _
    · intro e he hid
      simp only [List.mem_append, List.mem_singleton] at he
      rcases he with he | he
      · exact absurd hid (hno e he)
      · subst he; rfl
    · rw [List.filter_append]
      have h1 : s.pending.filter (fun e => e.2.1 = id) = [] := by
        rw [List.filter_eq_nil_iff]
        intro e he
        simp only [decide_eq_true_eq]
        exact hno e he
      rw [h1]
      simp
  | some h =>
    have hno : ∀ e ∈ s.pending.filter (fun e' => e'.1 ≠ h), e.2.1 ≠ id := by
      intro e he hid
      simp only [List.mem_filter, decide_eq_true_eq] at he
      obtain ⟨he, hne⟩ := he
      have := hst e he
      rw [hid, hg] at this
      exact hne (Option.some_inj.mp this).symm
    have hsubl : (s.pending.filter (fun e' => e'.1 ≠ h)).Sublist s.pending :=
      List.filter_sublist _
    simp only [animStart, if_pos hm, hg]
    refine ⟨⟨⟨?_, ?_, ?_⟩, ?_⟩, ?_⟩
    · simp only [List.map_append, List.map_cons, List.map_nil]
      rw [List.nodup_append]
      refine ⟨(hsubl.map (fun e => e.1)).nodup hnd, List.nodup_singleton _, ?_⟩
      intro x hx hx1
      simp only [List.mem_singleton] at hx1
      subst hx1
      simp only [List.mem_map] at hx
      obtain ⟨e, he, hex⟩ := hx
      exact absurd hex (Nat.ne_of_lt (hlt e (hsubl.mem he)))
    · intro e he
      simp only [List.mem_append, List.mem_singleton] at he
      rcases he with he | he
      · exact Nat.lt_succ_of_lt (hlt e (hsubl.mem he))
      · subst he; exact Nat.lt_succ_self _
    · intro e he
      simp only [List.mem_append, List.mem_singleton] at he
      rcases he with he | he
      · rw [assocGet_set_other _ _ _ _ (hno e he)]
        exact hst e (hsubl.mem he)
      · subst he
        exact assocGet_set_self _ _ _
    · intro e he hid
      simp only [List.mem_append, List.mem_singleton] at he
      rcases he with he | he
      · exact absurd hid (hno e he)
      · subst he; rfl
    · rw [List.filter_append]
      have h1 : (s.pending.filter (fun e' => e'.1 ≠ h)).filter
          (fun e => e.2.1 = id) = [] := by
        rw [List.filter_eq_nil_iff]
        intro e he
        simp only [decide_eq_true_eq]
        exact hno e he
      rw [h1]
      simp

/-- Firing one frame callback preserves the invariant and the single-run
property, and only emits samples of that run for the marker. -/
theorem animFire_good (s : AnimState) (h : Nat) (done : Bool)
    (id : String) (run : Nat) (hg : animGood s id run) :
    animGood (animFire s h done).1 id run ∧
    (∀ em, (animFire s h done).2 = some em → em.1 = id → em.2 = run) := by
  obtain ⟨⟨hnd, hlt, hst⟩, hone⟩ := hg
  cases hfind : s.pending.find? (fun e => e.1 = h) with
  | none =>
    simp only [animFire, hfind]
    exact ⟨⟨⟨hnd, hlt, hst⟩, hone⟩, by simp⟩
  | some e =>
    have hmem : e ∈ s.pending := List.mem_of_find?_eq_some hfind
    have heh : e.1 = h := by simpa using List.find?_some hfind
    have hsubl : (s.pending.filter (fun e' => e'.1 ≠ h)).Sublist s.pending :=
      List.filter_sublist _
    have hemit : e.2.1 = id → e.2.2 = run := hone e hmem
    have hno_p : ∀ e' ∈ s.pending.filter (fun e' => e'.1 ≠ h),
        e'.2.1 ≠ e.2.1 := by
      intro e' he' hid
      simp only [List.mem_filter, decide_eq_true_eq] at he'
      obtain ⟨he', hne⟩ := he'
      have h1 := hst e' he'
      have h2 := hst e hmem
      rw [hid] at h1
      rw [h1] at h2
      exact hne ((Option.some_inj.mp h2).symm ▸ heh)
    cases done with
    | true =>
      simp only [animFire, hfind, if_pos]
      refine ⟨⟨⟨?_, ?_, ?_⟩, ?_⟩, ?_⟩
      · exact (hsubl.map (fun e => e.1)).nodup hnd
      · intro e' he'
        exact hlt e' (hsubl.mem he')
      · intro e' he'
        exact hst e' (hsubl.mem he')
      · intro e' he' hid
        exact hone e' (hsubl.mem he') hid
      · intro em hm' hid
        have hem : em = (e.2.1, e.2.2) := by simpa using hm'.symm
        subst hem
        exact hemit hid
    | false =>
      have hred : animFire s h false =
          ({ s with
              pending := s.pending.filter (fun e' => e'.1 ≠ h) ++
                [(s.counter, e.2.1, e.2.2)]
              stored := assocSet s.stored e.2.1 s.counter
              counter := s.counter + 1 }, some (e.2.1, e.2.2)) := by
        simp only [animFire, hfind]
        rfl
      rw [hred]
      refine ⟨⟨⟨?_, ?_, ?_⟩, ?_⟩, ?_⟩
      · simp only [List.map_append, List.map_cons, List.map_nil]
        rw [List.nodup_append]
        refine ⟨(hsubl.map (fun e => e.1)).nodup hnd,
          List.nodup_singleton _, ?_⟩
        intro x hx hx1
        simp only [List.mem_singleton] at hx1
        subst hx1
        simp only [List.mem_map] at hx
        obtain ⟨e', he', hex⟩ := hx
        exact absurd hex (Nat.ne_of_lt (hlt e' (hsubl.mem he')))
      · intro e' he'
        simp only [List.mem_append, List.mem_singleton] at he'
        rcases he' with he' | he'
        · exact Nat.lt_succ_of_lt (hlt e' (hsubl.mem he'))
        · subst he'
          exact Nat.lt_succ_self _
      · intro e' he'
        simp only [List.mem_append, List.mem_singleton] at he'
        rcases he' with he' | he'
        · rw [assocGet_set_other _ _ _ _ (hno_p e' he')]
          exact hst e' (hsubl.mem he')
        · subst he'
          exact assocGet_set_self _ _ _
      · intro e' he' hid
        simp only [List.mem_append, List.mem_singleton] at he'
        rcases he' with he' | he'
        · exact hone e' (hsubl.mem he') hid
        · subst he'
          exact hemit hid
      · intro em hm' hid
        have hem : em = (e.2.1, e.2.2) := by simpa using hm'.symm
        subst hem
        exact hemit hid

/-- Firing any sequence of frame callbacks preserves the running property and
only emits samples of the surviving run for the marker. -/
theorem animFireSeq_good (id : String) (run : Nat) :
    ∀ (evs : List (Nat × Bool)) (s : AnimState), animGood s id run →
    animGood (animFireSeq s evs).1 id run ∧
    ∀ em ∈ (animFireSeq s evs).2, em.1 = id → em.2 = run := by
  intro evs
  induction evs with
  | nil =>
    intro s hg
    exact ⟨hg, by simp [animFireSeq]⟩
  | cons ev rest ih =>
    intro s hg
    obtain ⟨h, done⟩ := ev
    obtain ⟨hg', hem⟩ := animFire_good s h done id run hg
    obtain ⟨hgf, hemf⟩ := ih _ hg'
    refine ⟨by simpa [animFireSeq] using hgf, ?_⟩
    intro em hm' hid
    simp only [animFireSeq, List.mem_append] at hm'
    rcases hm' with h1 | h2
    · have hsome : (animFire s h done).2 = some em := by
        cases hx : (animFire s h done).2 with
        | none => rw [hx] at h1; simp at h1
        | some a =>
          rw [hx] at h1
          simp only [Option.toList_some, List.mem_singleton] at h1
          rw [h1]
      exact hem em hsome hid
    · exact hemf em h2 hid

/-- C8: starting a new animation for a driver id cancels the one in flight:
immediately afterwards exactly one pending frame exists for that id and it
belongs to the new run, and over every subsequent sequence of frame events
each sample emitted for that id belongs to the new run (none of the cancelled
run) while at most one pending frame per id ever exists. -/
theorem single_animation_per_driver (s : AnimState) (id : String)
    (run2 : Nat) (hinv : AnimInv s) (hm : id ∈ s.markers) :
    ((animStart s id run2).pending.filter (fun e => e.2.1 = id)).map
      (fun e => e.2.2) = [run2] ∧
    (∀ evs : List (Nat × Bool),
      (∀ em ∈ (animFireSeq (animStart s id run2) evs).2,
        em.1 = id → em.2 = run2) ∧
      ((animFireSeq (animStart s id run2) evs).1.pending.filter
        (fun e => e.2.1 = id)).length ≤ 1) := by
  obtain ⟨hgood, hfilter⟩ := animStart_good s id run2 hinv hm
  refine ⟨by rw [hfilter]; rfl, ?_⟩
  intro evs
  obtain ⟨hgf, hemf⟩ := animFireSeq_good id run2 evs _ hgood
  exact ⟨hemf, pending_per_id_le_one _ id hgf.1⟩

/-- C8 (witness): the theorem applied to a scheduler holding one marker "m1"
and no pending frames, starting run 2. -/
theorem single_animation_per_driver_witness :
    ((animStart ⟨["m1"], 0, [], []⟩ "m1" 2).pending.filter
      (fun e => e.2.1 = "m1")).map (fun e => e.2.2) = [2] ∧
    (∀ evs : List (Nat × Bool),
      (∀ em ∈ (animFireSeq (animStart ⟨["m1"], 0, [], []⟩ "m1" 2) evs).2,
        em.1 = "m1" → em.2 = 2) ∧
      ((animFireSeq (animStart ⟨["m1"], 0, [], []⟩ "m1" 2) evs).1.pending.filter
        (fun e => e.2.1 = "m1")).length ≤ 1) :=
  single_animation_per_driver ⟨["m1"], 0, [], []⟩ "m1" 2
    (by simp [AnimInv]) (by simp)
